import Mathlib

/-
Verification of the delay-decision state machine of the asyncbeats
middle server (src/middle-server/src/models/delay.rs).

The source file contains the type alias
  pub type RwLockDelayFlag = std::sync::Arc<tokio::sync::RwLock<DelayFlag>>;
and the enum DelayFlag with the three variants Initialized, Enabled and
Disabled.  The operations create / recordSend / currentClassification of
the DelayDecider are not present in the source tree; following the status
rules they are modelled from the specification text (section 4.1), which
mandates the threshold-zero special case explicitly.
-/

namespace Asyncbeats

/-- Translation of the enum DelayFlag from delay.rs lines 3 to 11: the
three delay classifications of the middle server. -/
inductive DelayFlag : Type
  | Initialized : DelayFlag
  | Enabled : DelayFlag
  | Disabled : DelayFlag
deriving DecidableEq, Repr

instance : Fintype DelayFlag :=
  ⟨⟨{DelayFlag.Initialized, DelayFlag.Enabled, DelayFlag.Disabled}, by decide⟩,
   fun x => by cases x <;> decide⟩

/-- Model of tokio RwLock: a guarded cell holding a value of type alpha.
The lock itself carries no further data. -/
structure RwLock (α : Type) : Type where
  value : α
deriving DecidableEq

/-- Model of std Arc: a shared-ownership handle to a value of type alpha.
The handle itself carries no further data. -/
structure Arc (α : Type) : Type where
  data : α
deriving DecidableEq

/-- Translation of the type alias RwLockDelayFlag from delay.rs line 1:
a shared, lock-guarded cell whose content is a DelayFlag. -/
abbrev RwLockDelayFlag : Type := Arc (RwLock DelayFlag)

/-- Modelled from the spec: the DelayState of section 3, holding the
current classification, the running send counter and the configured
threshold.  The struct itself is missing from src/. -/
structure DelayState : Type where
  classification : DelayFlag
  sendCount : ℕ
  threshold : ℕ
deriving DecidableEq, Repr

/-- Modelled from the spec: the pure recomputation of the classification
from sendCount and threshold described in section 4.1, including the
threshold-zero special case the spec mandates there (Enabled on the first
send, Disabled from the second on). -/
def classify (threshold sendCount : ℕ) : DelayFlag :=
  if sendCount = 0 then DelayFlag.Initialized
  else if threshold = 0 then
    (if sendCount = 1 then DelayFlag.Enabled else DelayFlag.Disabled)
  else if sendCount < threshold then DelayFlag.Initialized
  else if sendCount = threshold then DelayFlag.Enabled
  else DelayFlag.Disabled

/-- Modelled from the spec: construction, section 4.1.  A new DelayState
with classification Initialized and sendCount 0. -/
def create (threshold : ℕ) : DelayState :=
  ⟨DelayFlag.Initialized, 0, threshold⟩

/-- Modelled from the spec: recordSend, section 4.1.  Atomically
increments sendCount and recomputes the classification; the threshold is
left untouched. -/
def recordSend (s : DelayState) : DelayState :=
  ⟨classify s.threshold (s.sendCount + 1), s.sendCount + 1, s.threshold⟩

/-- Modelled from the spec: currentClassification, section 4.1.  A pure
read-only snapshot of the classification. -/
def currentClassification (s : DelayState) : DelayFlag :=
  s.classification

/-- Iterated recordSend: the state after n consecutive recordSend calls. -/
def iterateSend (s : DelayState) : ℕ → DelayState
  | 0 => s
  | n + 1 => recordSend (iterateSend s n)

/-- Rank of a classification in the forward order
Initialized, then Enabled, then Disabled. -/
def rank : DelayFlag → ℕ
  | DelayFlag.Initialized => 0
  | DelayFlag.Enabled => 1
  | DelayFlag.Disabled => 2

/-- Operations a session thread may perform on the shared DelayState.
recordSend takes the write lock and runs atomically; a read takes the
read lock and does not change the state. -/
inductive Op : Type
  | send : Op
  | read : Op
deriving DecidableEq, Repr

/-- One atomic step of an interleaving. -/
def step (s : DelayState) : Op → DelayState
  | Op.send => recordSend s
  | Op.read => s

/-- Run a whole interleaving, one atomic operation at a time. -/
def runOps (s : DelayState) : List Op → DelayState
  | [] => s
  | op :: rest => runOps (step s op) rest

/-- Number of recordSend operations in an interleaving. -/
def sendsIn : List Op → ℕ
  | [] => 0
  | Op.send :: rest => sendsIn rest + 1
  | Op.read :: rest => sendsIn rest

/-- A DelayState is reachable when some sequence of operations starting
from a freshly created state produces it.  Reads do not change the state,
so reachable states are exactly the iterated recordSend states. -/
def Reachable (s : DelayState) : Prop :=
  ∃ t n, s = iterateSend (create t) n

-- Basic shape of the iterated state.

theorem iterateSend_create (t n : ℕ) :
    iterateSend (create t) n = ⟨classify t n, n, t⟩ := by
  induction n with
  | zero => simp [iterateSend, create, classify]
  | succ n ih => simp [iterateSend, ih, recordSend]

theorem classify_iff (t n : ℕ) :
    (classify t n = DelayFlag.Initialized ↔ n < max t 1) ∧
    (classify t n = DelayFlag.Enabled ↔ n = max t 1) ∧
    (classify t n = DelayFlag.Disabled ↔ max t 1 < n) := by
  unfold classify
  split_ifs <;> simp_all <;> omega

theorem rank_classify (t n : ℕ) :
    rank (classify t n) =
      if n < max t 1 then 0 else if n = max t 1 then 1 else 2 := by
  unfold classify
  split_ifs <;> simp_all [rank] <;> omega

theorem iterateSend_sendCount (s : DelayState) (n : ℕ) :
    (iterateSend s n).sendCount = s.sendCount + n := by
  induction n with
  | zero => simp [iterateSend]
  | succ n ih => simp [iterateSend, recordSend, ih]; omega

theorem iterateSend_recordSend (s : DelayState) (n : ℕ) :
    iterateSend (recordSend s) n = iterateSend s (n + 1) := by
  induction n with
  | zero => simp [iterateSend]
  | succ n ih => simp only [iterateSend, ih]

theorem runOps_eq_iterateSend (ops : List Op) (s : DelayState) :
    runOps s ops = iterateSend s (sendsIn ops) := by
  induction ops generalizing s with
  | nil => simp [runOps, sendsIn, iterateSend]
  | cons op rest ih =>
    cases op with
    | send =>
      simp only [runOps, step, sendsIn, ih, iterateSend_recordSend]
    | read =>
      simp only [runOps, step, sendsIn, ih]

-- Claim theorems.

/-- Claim C1, counterexample.  The general rule of the claim demands
Disabled after one send at threshold 0 (since 1 > 0), but the state after
one send at threshold 0 is Enabled: the mandated threshold-zero special
case contradicts the general rule. -/
theorem classification_general_rule_fails_at_zero_threshold :
    1 > 0 ∧
    (iterateSend (create 0) 1).classification ≠ DelayFlag.Disabled := by
  constructor
  · decide
  · decide

/-- Claim C1, amended.  For every threshold t and every number n of
consecutive recordSend calls from a fresh DelayState, writing T for
max t 1, the classification is Initialized exactly when n < T, Enabled
exactly when n = T and Disabled exactly when n > T.  For t at least 1
this is the rule as the claim states it; for t = 0 the effective
boundary is shifted to 1 by the threshold-zero special case. -/
theorem classification_after_n_sends (t n : ℕ) :
    ((iterateSend (create t) n).classification = DelayFlag.Initialized ↔
      n < max t 1) ∧
    ((iterateSend (create t) n).classification = DelayFlag.Enabled ↔
      n = max t 1) ∧
    ((iterateSend (create t) n).classification = DelayFlag.Disabled ↔
      max t 1 < n) := by
  rw [iterateSend_create]
  exact classify_iff t n

/-- Claim C2.  For every threshold t, create t yields a DelayState whose
classification is Initialized, whose sendCount is 0 and whose threshold
is t; create is a pure function of its argument. -/
theorem create_spec (t : ℕ) :
    (create t).classification = DelayFlag.Initialized ∧
    (create t).sendCount = 0 ∧
    (create t).threshold = t := by
  exact ⟨rfl, rfl, rfl⟩

/-- Claim C3, counterexample.  The reachable state after one recordSend
at threshold 2 is classified Initialized while its sendCount is 1, so
the claimed invariant that classification is Initialized iff sendCount
is 0 fails on a reachable state. -/
theorem initialized_iff_zero_fails_below_threshold :
    ¬ (((recordSend (create 2)).classification = DelayFlag.Initialized) ↔
       ((recordSend (create 2)).sendCount = 0)) := by
  decide

/-- Claim C3, amended.  In every reachable DelayState s, writing T for
max of threshold and 1: classification is Initialized iff sendCount < T,
Enabled iff sendCount = T, and Disabled iff sendCount > T.  The claimed
iff at sendCount = 0 holds only one way: sub-threshold states keep the
Initialized classification with a positive sendCount. -/
theorem reachable_state_classification_iff (s : DelayState)
    (h : Reachable s) :
    (s.classification = DelayFlag.Initialized ↔
      s.sendCount < max s.threshold 1) ∧
    (s.classification = DelayFlag.Enabled ↔
      s.sendCount = max s.threshold 1) ∧
    (s.classification = DelayFlag.Disabled ↔
      max s.threshold 1 < s.sendCount) := by
  obtain ⟨t, n, rfl⟩ := h
  rw [iterateSend_create]
  exact classify_iff t n

/-- Claim C3, witness for the amended theorem at the concrete reachable
state after one recordSend at threshold 2. -/
theorem reachable_state_classification_iff_witness :
    Reachable (recordSend (create 2)) ∧
    (((recordSend (create 2)).classification = DelayFlag.Initialized ↔
        (recordSend (create 2)).sendCount <
          max (recordSend (create 2)).threshold 1) ∧
     ((recordSend (create 2)).classification = DelayFlag.Enabled ↔
        (recordSend (create 2)).sendCount =
          max (recordSend (create 2)).threshold 1) ∧
     ((recordSend (create 2)).classification = DelayFlag.Disabled ↔
        max (recordSend (create 2)).threshold 1 <
          (recordSend (create 2)).sendCount)) :=
  ⟨⟨2, 1, rfl⟩,
   reachable_state_classification_iff (recordSend (create 2)) ⟨2, 1, rfl⟩⟩

/-- Claim C4.  From a fresh DelayState, sendCount after n recordSend
calls equals exactly n; on every state, one recordSend call increases
sendCount by exactly 1, so it never decreases. -/
theorem sendCount_after_n_sends (t n : ℕ) (s : DelayState) :
    (iterateSend (create t) n).sendCount = n ∧
    (recordSend s).sendCount = s.sendCount + 1 ∧
    s.sendCount ≤ (recordSend s).sendCount := by
  refine ⟨?_, rfl, ?_⟩
  · rw [iterateSend_create]
  · simp [recordSend]

/-- Claim C5.  The classification sequence sampled after every
recordSend call is non-decreasing in the order Initialized, Enabled,
Disabled, and once Disabled is reached every later state is still
Disabled: Disabled is terminal. -/
theorem classification_nondecreasing_disabled_terminal (t n m : ℕ) :
    rank ((iterateSend (create t) n).classification) ≤
      rank ((iterateSend (create t) (n + 1)).classification) ∧
    ((iterateSend (create t) n).classification = DelayFlag.Disabled →
      (iterateSend (create t) (n + m)).classification =
        DelayFlag.Disabled) := by
  constructor
  · rw [iterateSend_create, iterateSend_create, rank_classify, rank_classify]
    split_ifs <;> omega
  · intro h
    rw [iterateSend_create] at h ⊢
    rw [(classify_iff t n).2.2] at h
    exact (classify_iff t (n + m)).2.2.mpr (by omega)

/-- Claim C5, witness at threshold 0, comparing the states after 2 and
after 3 sends and propagating Disabled 3 steps further. -/
theorem classification_nondecreasing_disabled_terminal_witness :
    rank ((iterateSend (create 0) 2).classification) ≤
      rank ((iterateSend (create 0) (2 + 1)).classification) ∧
    ((iterateSend (create 0) 2).classification = DelayFlag.Disabled →
      (iterateSend (create 0) (2 + 3)).classification =
        DelayFlag.Disabled) :=
  classification_nondecreasing_disabled_terminal 0 2 3

/-- Claim C6.  At threshold 0, the first recordSend on a fresh
DelayState yields classification Enabled and the second yields
Disabled. -/
theorem threshold_zero_boundary :
    (iterateSend (create 0) 1).classification = DelayFlag.Enabled ∧
    (iterateSend (create 0) 2).classification = DelayFlag.Disabled := by
  decide

/-- Claim C7.  Along every sequence of recordSend and read operations
after construction, the threshold field keeps the value supplied at
construction; a single recordSend preserves it and
currentClassification is a pure read that touches no field. -/
theorem threshold_immutable (t : ℕ) (ops : List Op) (s : DelayState) :
    (runOps (create t) ops).threshold = t ∧
    (recordSend s).threshold = s.threshold ∧
    currentClassification s = s.classification := by
  refine ⟨?_, rfl, rfl⟩
  rw [runOps_eq_iterateSend, iterateSend_create]

/-- Claim C8, counterexample.  In the interleaving consisting of one
recordSend at threshold 2, a reader afterwards observes the pair of
classification Initialized with sendCount 1, which violates the claimed
section 3 invariant that Initialized holds iff sendCount is 0. -/
theorem observed_pair_violates_iff_invariants :
    (runOps (create 2) [Op.send]).classification =
      DelayFlag.Initialized ∧
    (runOps (create 2) [Op.send]).sendCount ≠ 0 := by
  decide

/-- Claim C8, amended.  For every interleaving of atomic recordSend and
read operations: the final sendCount equals the initial value plus
exactly the number of recordSend operations (no lost updates), and from
a fresh DelayState every observed state is consistent, its
classification being exactly the pure recomputation from its threshold
and sendCount (no torn pair); the literal section 3 iff invariants
themselves fail on sub-threshold states. -/
theorem interleaving_no_lost_updates (s : DelayState) (t : ℕ)
    (ops : List Op) :
    (runOps s ops).sendCount = s.sendCount + sendsIn ops ∧
    (runOps (create t) ops).classification =
      classify (runOps (create t) ops).threshold
        ((runOps (create t) ops).sendCount) := by
  rw [runOps_eq_iterateSend, runOps_eq_iterateSend, iterateSend_sendCount,
    iterateSend_create]
  exact ⟨rfl, rfl⟩

/-- Claim C9.  DelayFlag is a closed set of exactly the three mutually
distinct variants Initialized, Enabled and Disabled. -/
theorem delayFlag_closed_three_variants :
    (∀ f : DelayFlag,
      f = DelayFlag.Initialized ∨ f = DelayFlag.Enabled ∨
        f = DelayFlag.Disabled) ∧
    DelayFlag.Initialized ≠ DelayFlag.Enabled ∧
    DelayFlag.Initialized ≠ DelayFlag.Disabled ∧
    DelayFlag.Enabled ≠ DelayFlag.Disabled := by
  refine ⟨fun f => ?_, by decide, by decide, by decide⟩
  cases f
  · exact Or.inl rfl
  · exact Or.inr (Or.inl rfl)
  · exact Or.inr (Or.inr rfl)

/-- Claim C10.  The lock-guarded shared cell RwLockDelayFlag holds
exactly one DelayFlag and nothing else: projecting out the flag is a
bijection, and no injection of the naturals into the cell type exists,
so neither a sendCount counter nor a threshold can live inside the
guarded state. -/
theorem rwLock_cell_holds_only_flag :
    Function.Bijective (fun c : RwLockDelayFlag => c.data.value) ∧
    ¬ ∃ f : ℕ → RwLockDelayFlag, Function.Injective f := by
  constructor
  · constructor
    · intro c₁ c₂ h
      cases c₁ with
      | mk d₁ => cases d₁ with
        | mk v₁ =>
          cases c₂ with
          | mk d₂ => cases d₂ with
            | mk v₂ => simpa using h
    · intro v
      exact ⟨⟨⟨v⟩⟩, rfl⟩
  · rintro ⟨f, hf⟩
    haveI : Finite RwLockDelayFlag :=
      Finite.of_injective (fun c : RwLockDelayFlag => c.data.value)
        (fun c₁ c₂ h => by
          cases c₁ with
          | mk d₁ => cases d₁ with
            | mk v₁ =>
              cases c₂ with
              | mk d₂ => cases d₂ with
                | mk v₂ => simpa using h)
    exact (Finite.of_injective f hf).false

end Asyncbeats
